import Mathlib

/-!
# Verification of the configinator precedence-resolution engine

Shallow embedding of `configinator.go` and `container/container.go`.

Conventions of the embedding:
* Go machine integers (`int`) are modelled as `Int` with the explicit 64-bit
  range check that `strconv.Atoi` performs.
* Go `float64` values are modelled as `Rat`, taking the exact decimal value of
  the literal; IEEE-754 rounding, hex floats, `inf`/`nan` forms and digit
  underscores of `strconv.ParseFloat` are abstracted away (no claim below
  depends on them).
* Go `time.Time` is modelled as `GoTime`, a record of the calendar fields plus
  a zone offset; the local time zone is taken to be UTC, so an unknown zone
  abbreviation parses with offset 0 exactly as `time.Parse` fabricates it.
* The process environment (`os.Getenv`) is passed explicitly as a function
  `String → String` returning `""` for unset variables, as in Go.
* The `.env` file mapping is an association list, as the spec's externally
  produced mapping.
* A Go pointer produced by `flag.Bool` & co. is an `Option` field: `none`
  models the nil pointer left when flag registration is skipped.
-/

set_option autoImplicit false

namespace Configinator

/-- Model of Go `strconv.ParseBool`: accepts exactly the listed literal forms. -/
def parseBool (s : String) : Option Bool :=
  if s = "1" ∨ s = "t" ∨ s = "T" ∨ s = "TRUE" ∨ s = "true" ∨ s = "True" then
    some true
  else if s = "0" ∨ s = "f" ∨ s = "F" ∨ s = "FALSE" ∨ s = "false" ∨ s = "False" then
    some false
  else
    none

/-- Digit run of a char list folded to a natural number (base 10). -/
def digitsVal (cs : List Char) : Nat :=
  cs.foldl (fun acc c => acc * 10 + (c.toNat - 48)) 0

/-- Model of Go `strconv.Atoi`: optional sign, at least one digit, full-string
match, 64-bit signed range (`ErrRange` is an error, hence `none`). -/
def atoi (s : String) : Option Int :=
  let cs := s.toList
  let signAndDigits : Bool × List Char :=
    match cs with
    | '+' :: rest => (false, rest)
    | '-' :: rest => (true, rest)
    | _ => (false, cs)
  let neg := signAndDigits.1
  let ds := signAndDigits.2
  if ds ≠ [] ∧ ds.all Char.isDigit then
    let v : Int := if neg then -(digitsVal ds : Int) else (digitsVal ds : Int)
    if -(2 ^ 63) ≤ v ∧ v ≤ 2 ^ 63 - 1 then some v else none
  else
    none

/-- Model of Go `strconv.ParseFloat` on the plain decimal grammar
`[sign] digits [. digits] [(e|E) [sign] digits]` (at least one mantissa
digit; `.5` and `1.` are accepted as in Go).  The result is the exact decimal
value as a rational. -/
def parseFloat (s : String) : Option Rat :=
  let cs := s.toList
  let signAndRest : Int × List Char :=
    match cs with
    | '+' :: rest => (1, rest)
    | '-' :: rest => (-1, rest)
    | _ => (1, cs)
  let sign := signAndRest.1
  let cs1 := signAndRest.2
  let intPart := cs1.takeWhile Char.isDigit
  let rest1 := cs1.dropWhile Char.isDigit
  let fracAndRest : List Char × List Char :=
    match rest1 with
    | '.' :: r => (r.takeWhile Char.isDigit, r.dropWhile Char.isDigit)
    | _ => ([], rest1)
  let fracPart := fracAndRest.1
  let rest2 := fracAndRest.2
  if intPart = [] ∧ fracPart = [] then
    none
  else
    let mant : Int := sign * ((digitsVal intPart : Int) * 10 ^ fracPart.length
      + (digitsVal fracPart : Int))
    let expAndRest : Option Int × List Char :=
      match rest2 with
      | 'e' :: r =>
        let es : Int × List Char :=
          match r with
          | '+' :: rr => (1, rr)
          | '-' :: rr => (-1, rr)
          | _ => (1, r)
        let eds := es.2.takeWhile Char.isDigit
        if eds = [] then (none, es.2)
        else (some (es.1 * (digitsVal eds : Int)), es.2.dropWhile Char.isDigit)
      | 'E' :: r =>
        let es : Int × List Char :=
          match r with
          | '+' :: rr => (1, rr)
          | '-' :: rr => (-1, rr)
          | _ => (1, r)
        let eds := es.2.takeWhile Char.isDigit
        if eds = [] then (none, es.2)
        else (some (es.1 * (digitsVal eds : Int)), es.2.dropWhile Char.isDigit)
      | _ => (some 0, rest2)
    match expAndRest.1 with
    | none => none
    | some e =>
      if expAndRest.2 ≠ [] then none
      else
        let shift : Int := e - (fracPart.length : Int)
        if 0 ≤ shift then some (mkRat (mant * 10 ^ shift.toNat) 1)
        else some (mkRat mant (10 ^ (-shift).toNat))

/-- Model of a parsed Go `time.Time`: calendar fields plus the zone offset in
minutes east of UTC. -/
structure GoTime where
  year : Nat
  month : Nat
  day : Nat
  hour : Nat
  minute : Nat
  second : Nat
  offset : Int
  deriving DecidableEq, Repr

/-- The Go zero `time.Time{}`: January 1, year 1, 00:00:00 UTC. -/
def zeroTime : GoTime := ⟨1, 1, 1, 0, 0, 0, 0⟩

/-- Consume exactly two ASCII digits. -/
def take2 : List Char → Option (Nat × List Char)
  | a :: b :: rest =>
    if a.isDigit ∧ b.isDigit then
      some ((a.toNat - 48) * 10 + (b.toNat - 48), rest)
    else none
  | _ => none

/-- Consume exactly four ASCII digits (the `2006` year element). -/
def take4 : List Char → Option (Nat × List Char)
  | a :: b :: c :: d :: rest =>
    if a.isDigit ∧ b.isDigit ∧ c.isDigit ∧ d.isDigit then
      some (((a.toNat - 48) * 10 + (b.toNat - 48)) * 100
        + (c.toNat - 48) * 10 + (d.toNat - 48), rest)
    else none
  | _ => none

/-- Consume one expected literal character. -/
def expectChar (c : Char) : List Char → Option (List Char)
  | x :: rest => if x = c then some rest else none
  | [] => none

/-- Gregorian leap-year rule used by Go's date validation. -/
def isLeap (y : Nat) : Bool := y % 4 = 0 ∧ (y % 100 ≠ 0 ∨ y % 400 = 0)

/-- Days in a month, as validated by `time.Parse` ("day out of range"). -/
def daysInMonth (y m : Nat) : Nat :=
  if m = 2 then (if isLeap y then 29 else 28)
  else if m = 4 ∨ m = 6 ∨ m = 9 ∨ m = 11 then 30
  else 31

/-- The `2006-01-02` date prefix with Go's range validation. -/
def parseDate (cs : List Char) : Option (Nat × Nat × Nat × List Char) := do
  let (y, cs) ← take4 cs
  let cs ← expectChar '-' cs
  let (m, cs) ← take2 cs
  let cs ← expectChar '-' cs
  let (d, cs) ← take2 cs
  if 1 ≤ m ∧ m ≤ 12 ∧ 1 ≤ d ∧ d ≤ daysInMonth y m then some (y, m, d, cs)
  else none

/-- The `15:04:05` clock element with Go's range validation. -/
def parseClock (cs : List Char) : Option (Nat × Nat × Nat × List Char) := do
  let (h, cs) ← take2 cs
  let cs ← expectChar ':' cs
  let (mi, cs) ← take2 cs
  let cs ← expectChar ':' cs
  let (se, cs) ← take2 cs
  if h ≤ 23 ∧ mi ≤ 59 ∧ se ≤ 59 then some (h, mi, se, cs) else none

/-- Go layout `"2006-01-02"`. -/
def parseLayoutDate (cs : List Char) : Option GoTime := do
  let (y, m, d, rest) ← parseDate cs
  if rest = [] then some ⟨y, m, d, 0, 0, 0, 0⟩ else none

/-- Go layout `"2006-01-02 15:04:05"`. -/
def parseLayoutDateSpaceTime (cs : List Char) : Option GoTime := do
  let (y, m, d, cs) ← parseDate cs
  let cs ← expectChar ' ' cs
  let (h, mi, se, rest) ← parseClock cs
  if rest = [] then some ⟨y, m, d, h, mi, se, 0⟩ else none

/-- Go layout `"2006-01-02T15:04:05"`. -/
def parseLayoutDateTTime (cs : List Char) : Option GoTime := do
  let (y, m, d, cs) ← parseDate cs
  let cs ← expectChar 'T' cs
  let (h, mi, se, rest) ← parseClock cs
  if rest = [] then some ⟨y, m, d, h, mi, se, 0⟩ else none

/-- Go layout `"2006-01-02T15:04:05Z"` (a literal `Z`, the instant is UTC). -/
def parseLayoutDateTTimeZ (cs : List Char) : Option GoTime := do
  let (y, m, d, cs) ← parseDate cs
  let cs ← expectChar 'T' cs
  let (h, mi, se, cs) ← parseClock cs
  let rest ← expectChar 'Z' cs
  if rest = [] then some ⟨y, m, d, h, mi, se, 0⟩ else none

/-- Go layout `"2006-01-02T15:04:05 MST"`: a 3-letter, or 4-letter
`T`-terminated, upper-case zone abbreviation.  With a UTC local zone every
such abbreviation resolves (or is fabricated by `time.Parse`) with offset 0. -/
def parseLayoutDateTTimeAbbrev (cs : List Char) : Option GoTime := do
  let (y, m, d, cs) ← parseDate cs
  let cs ← expectChar 'T' cs
  let (h, mi, se, cs) ← parseClock cs
  let cs ← expectChar ' ' cs
  let abbr := cs.takeWhile Char.isUpper
  let rest := cs.dropWhile Char.isUpper
  if rest = [] ∧ (abbr.length = 3 ∨ (abbr.length = 4 ∧ abbr.getLast? = some 'T')) then
    some ⟨y, m, d, h, mi, se, 0⟩
  else none

/-- Go layout `"2006-01-02T15:04:05-0700"`: a signed 4-digit numeric offset. -/
def parseLayoutDateTTimeNumTZ (cs : List Char) : Option GoTime := do
  let (y, m, d, cs) ← parseDate cs
  let cs ← expectChar 'T' cs
  let (h, mi, se, cs) ← parseClock cs
  let signAndRest : Option (Int × List Char) :=
    match cs with
    | '+' :: r => some (1, r)
    | '-' :: r => some (-1, r)
    | _ => none
  let (sign, cs) ← signAndRest
  let (oh, cs) ← take2 cs
  let (om, rest) ← take2 cs
  if rest = [] then some ⟨y, m, d, h, mi, se, sign * ((oh : Int) * 60 + (om : Int))⟩
  else none

/-- The ordered layout list `timeFormats` of `container.go`: each Go format
string is embedded as the dedicated parser above, in the same order. -/
def timeFormats : List (List Char → Option GoTime) :=
  [parseLayoutDate, parseLayoutDateSpaceTime, parseLayoutDateTTime,
   parseLayoutDateTTimeZ, parseLayoutDateTTimeAbbrev, parseLayoutDateTTimeNumTZ]

/-- The `for _, f := range timeFormats` loop: first successful parse. -/
def firstParse : List (List Char → Option GoTime) → List Char → Option GoTime
  | [], _ => none
  | f :: fs, cs =>
    match f cs with
    | some t => some t
    | none => firstParse fs cs

/-- `TimeContainer.parseTime`: first matching layout, else the zero time. -/
def parseTime (value : String) : GoTime :=
  match firstParse timeFormats value.toList with
  | some t => t
  | none => zeroTime

/-- `TimeContainer.isTime`: some layout matches. -/
def isTime (value : String) : Bool :=
  (firstParse timeFormats value.toList).isSome

/-- The process environment, `os.Getenv`: `""` for unset variables. -/
def OsEnv : Type := String → String

/-- `baseContainer` of `container.go` (the `config`/`configValue`/`field`/
`fieldValue` reflection handles are represented by the resolution functions
below returning the written value instead of mutating a struct). -/
structure BaseContainer where
  defaultValue : String
  description : String
  envFile : List (String × String)
  envName : String
  fieldName : String
  flagName : String
  deriving DecidableEq, Repr

/-- `BoolContainer`: the `flagValue *bool` pointer is `none` when nil. -/
structure BoolContainer where
  base : BaseContainer
  flagValue : Option Bool
  deriving DecidableEq, Repr

/-- `IntContainer`. -/
structure IntContainer where
  base : BaseContainer
  flagValue : Option Int
  deriving DecidableEq, Repr

/-- `Float64Container`. -/
structure Float64Container where
  base : BaseContainer
  flagValue : Option Rat
  deriving DecidableEq, Repr

/-- `StringContainer`. -/
structure StringContainer where
  base : BaseContainer
  flagValue : Option String
  deriving DecidableEq, Repr

/-- `TimeContainer`: Go registers a *string* flag for timestamp fields. -/
structure TimeContainer where
  base : BaseContainer
  flagValue : Option String
  deriving DecidableEq, Repr

/-- `BoolContainer.GetDefaultValue`. -/
def BoolContainer.GetDefaultValue (c : BoolContainer) : Bool :=
  match parseBool c.base.defaultValue with
  | some result => result
  | none => false

/-- `BoolContainer.GetEnvValue`. -/
def BoolContainer.GetEnvValue (c : BoolContainer) (osEnv : OsEnv) : Bool × Bool :=
  let value := osEnv c.base.envName
  if value ≠ "" then
    match parseBool value with
    | some result => (result, true)
    | none => (false, false)
  else (false, false)

/-- `BoolContainer.GetEnvFileValue`. -/
def BoolContainer.GetEnvFileValue (c : BoolContainer) : Bool × Bool :=
  match c.base.envFile.lookup c.base.envName with
  | some value =>
    match parseBool value with
    | some result => (result, true)
    | none => (false, false)
  | none => (false, false)

/-- `BoolContainer.GetFlagValue`. -/
def BoolContainer.GetFlagValue (c : BoolContainer) : Bool × Bool :=
  match c.flagValue with
  | some v => if v ≠ c.GetDefaultValue then (v, true) else (false, false)
  | none => (false, false)

/-- `IntContainer.GetDefaultValue`. -/
def IntContainer.GetDefaultValue (c : IntContainer) : Int :=
  match atoi c.base.defaultValue with
  | some result => result
  | none => 0

/-- `IntContainer.GetEnvValue`. -/
def IntContainer.GetEnvValue (c : IntContainer) (osEnv : OsEnv) : Int × Bool :=
  let value := osEnv c.base.envName
  if value ≠ "" then
    match atoi value with
    | some result => (result, true)
    | none => (0, false)
  else (0, false)

/-- `IntContainer.GetEnvFileValue`. -/
def IntContainer.GetEnvFileValue (c : IntContainer) : Int × Bool :=
  match c.base.envFile.lookup c.base.envName with
  | some value =>
    match atoi value with
    | some result => (result, true)
    | none => (0, false)
  | none => (0, false)

/-- `IntContainer.GetFlagValue`. -/
def IntContainer.GetFlagValue (c : IntContainer) : Int × Bool :=
  match c.flagValue with
  | some v => if v ≠ c.GetDefaultValue then (v, true) else (0, false)
  | none => (0, false)

/-- `Float64Container.GetDefaultValue`. -/
def Float64Container.GetDefaultValue (c : Float64Container) : Rat :=
  match parseFloat c.base.defaultValue with
  | some result => result
  | none => 0

/-- `Float64Container.GetEnvValue`. -/
def Float64Container.GetEnvValue (c : Float64Container) (osEnv : OsEnv) : Rat × Bool :=
  let value := osEnv c.base.envName
  if value ≠ "" then
    match parseFloat value with
    | some result => (result, true)
    | none => (0, false)
  else (0, false)

/-- `Float64Container.GetEnvFileValue`. -/
def Float64Container.GetEnvFileValue (c : Float64Container) : Rat × Bool :=
  match c.base.envFile.lookup c.base.envName with
  | some value =>
    match parseFloat value with
    | some result => (result, true)
    | none => (0, false)
  | none => (0, false)

/-- `Float64Container.GetFlagValue`. -/
def Float64Container.GetFlagValue (c : Float64Container) : Rat × Bool :=
  match c.flagValue with
  | some v => if v ≠ c.GetDefaultValue then (v, true) else (0, false)
  | none => (0, false)

/-- `StringContainer.GetDefaultValue`: the raw default tag, no parsing. -/
def StringContainer.GetDefaultValue (c : StringContainer) : String :=
  c.base.defaultValue

/-- `StringContainer.GetEnvValue`. -/
def StringContainer.GetEnvValue (c : StringContainer) (osEnv : OsEnv) : String × Bool :=
  let value := osEnv c.base.envName
  if value ≠ "" then (value, true) else ("", false)

/-- `StringContainer.GetEnvFileValue`: presence is key existence alone. -/
def StringContainer.GetEnvFileValue (c : StringContainer) : String × Bool :=
  match c.base.envFile.lookup c.base.envName with
  | some value => (value, true)
  | none => ("", false)

/-- `StringContainer.GetFlagValue`. -/
def StringContainer.GetFlagValue (c : StringContainer) : String × Bool :=
  match c.flagValue with
  | some v => if v ≠ c.GetDefaultValue then (v, true) else ("", false)
  | none => ("", false)

/-- `TimeContainer.GetDefaultValue`. -/
def TimeContainer.GetDefaultValue (c : TimeContainer) : GoTime :=
  if ¬isTime c.base.defaultValue then zeroTime
  else parseTime c.base.defaultValue

/-- `TimeContainer.GetEnvValue`: any nonempty value is reported present,
parsed best-effort (`parseTime` yields the zero time when no layout fits). -/
def TimeContainer.GetEnvValue (c : TimeContainer) (osEnv : OsEnv) : GoTime × Bool :=
  let value := osEnv c.base.envName
  if value ≠ "" then (parseTime value, true) else (zeroTime, false)

/-- `TimeContainer.GetEnvFileValue`: presence is key existence alone. -/
def TimeContainer.GetEnvFileValue (c : TimeContainer) : GoTime × Bool :=
  match c.base.envFile.lookup c.base.envName with
  | some value => (parseTime value, true)
  | none => (zeroTime, false)

/-- `TimeContainer.GetFlagValue`: note the comparison is between the *raw*
flag string and the *raw* default tag, unlike the other containers. -/
def TimeContainer.GetFlagValue (c : TimeContainer) : GoTime × Bool :=
  match c.flagValue with
  | some v => if v ≠ c.base.defaultValue then (parseTime v, true) else (zeroTime, false)
  | none => (zeroTime, false)

/-- `applyValueWithPrecedence` of `configinator.go`: the three sequential
conditional overwrites, starting from the current field value. -/
def applyValueWithPrecedence {T : Type} (envV envFileV flagV : T × Bool)
    (current : T) : T :=
  let v1 := if envV.2 then envV.1 else current
  let v2 := if envFileV.2 then envFileV.1 else v1
  if flagV.2 then flagV.1 else v2

/-- One field's full resolution: `NewBool` has already written the default
(`SetConfigValue(GetDefaultValue())`), then `applyValueWithPrecedence` runs. -/
def resolveBool (c : BoolContainer) (osEnv : OsEnv) : Bool :=
  applyValueWithPrecedence (c.GetEnvValue osEnv) c.GetEnvFileValue c.GetFlagValue
    c.GetDefaultValue

/-- Full resolution of an int field (default written at construction). -/
def resolveInt (c : IntContainer) (osEnv : OsEnv) : Int :=
  applyValueWithPrecedence (c.GetEnvValue osEnv) c.GetEnvFileValue c.GetFlagValue
    c.GetDefaultValue

/-- Full resolution of a float64 field (default written at construction). -/
def resolveFloat64 (c : Float64Container) (osEnv : OsEnv) : Rat :=
  applyValueWithPrecedence (c.GetEnvValue osEnv) c.GetEnvFileValue c.GetFlagValue
    c.GetDefaultValue

/-- Full resolution of a string field (default written at construction). -/
def resolveString (c : StringContainer) (osEnv : OsEnv) : String :=
  applyValueWithPrecedence (c.GetEnvValue osEnv) c.GetEnvFileValue c.GetFlagValue
    c.GetDefaultValue

/-- Full resolution of a timestamp field (default written at construction). -/
def resolveTime (c : TimeContainer) (osEnv : OsEnv) : GoTime :=
  applyValueWithPrecedence (c.GetEnvValue osEnv) c.GetEnvFileValue c.GetFlagValue
    c.GetDefaultValue

/-- One struct field of the caller's configuration object: its Go type name
(as `reflect.Type.String` renders it, e.g. `"time.Time"`), settability, and
the four struct tags (`Tag.Get` yields `""` for an absent tag, while the
`flag` tag is looked up with `Tag.Lookup`, hence an `Option`). -/
structure FieldDecl where
  name : String
  typeName : String
  canSet : Bool
  flagTag : Option String
  envTag : String
  defaultTag : String
  descriptionTag : String
  deriving DecidableEq, Repr

/-- A value of one of the five supported Go field types. -/
inductive GoValue where
  | bool (b : Bool)
  | int (n : Int)
  | float (q : Rat)
  | str (s : String)
  | time (t : GoTime)
  deriving DecidableEq, Repr

/-- The errors `container.New` can return: `ErrCantSet`, `ErrNoFlagName`,
and the "unsupported field type: %s" error. -/
inductive ContainerError where
  | errCantSet
  | errNoFlagName
  | unsupportedFieldType (typeName : String)
  deriving DecidableEq, Repr

/-- Run-aborting events of the `flag` package: re-registering a defined flag
name panics, and a command-line value that fails the flag's parser makes
`flag.Parse` exit the process. -/
inductive GoPanic where
  | flagRedefined (name : String)
  | badFlagSyntax (name : String)
  deriving DecidableEq, Repr

/-- The `flag` package's process-wide state: `flag.Parsed()` and the set of
registered flag names of `flag.CommandLine`. -/
structure FlagSys where
  parsed : Bool
  defined : List String
  deriving DecidableEq, Repr

/-- The `any` value `container.New` returns: one of the five containers. -/
inductive AnyContainer where
  | bool (c : BoolContainer)
  | int (c : IntContainer)
  | float (c : Float64Container)
  | str (c : StringContainer)
  | time (c : TimeContainer)
  deriving DecidableEq, Repr

/-- `newBaseContainer`: fails on an unsettable field, then on a missing
`flag` tag, then builds the base from the tags. -/
def newBaseContainer (decl : FieldDecl) (envFile : List (String × String)) :
    Except ContainerError BaseContainer :=
  if ¬decl.canSet then .error .errCantSet
  else
    match decl.flagTag with
    | none => .error .errNoFlagName
    | some flagName =>
      .ok { defaultValue := decl.defaultTag, description := decl.descriptionTag,
            envFile := envFile, envName := decl.envTag, fieldName := decl.name,
            flagName := flagName }

deriving instance DecidableEq for Except

/-- `strings.ToLower` as `container.New` applies it to the reflected type
string (Go type names are ASCII, so per-character lowering is exact;
`String.toLower` itself is avoided because its `mapAux` does not reduce). -/
def toLowerAscii (s : String) : String := ⟨s.data.map Char.toLower⟩

/-- The type dispatch of `container.New` (lower-cased Go type string) fused
with each `NewXxx`'s call to `newBaseContainer`; the returned container still
has a nil flag pointer — registration is split off into `New` below, which
keeps the Go semantics (registration happens only when `!flag.Parsed()`). -/
def mkContainer (decl : FieldDecl) (envFile : List (String × String)) :
    Except ContainerError AnyContainer :=
  let fieldType := toLowerAscii decl.typeName
  if fieldType = "bool" then
    (newBaseContainer decl envFile).map fun b => .bool ⟨b, none⟩
  else if fieldType = "int" then
    (newBaseContainer decl envFile).map fun b => .int ⟨b, none⟩
  else if fieldType = "float64" then
    (newBaseContainer decl envFile).map fun b => .float ⟨b, none⟩
  else if fieldType = "string" then
    (newBaseContainer decl envFile).map fun b => .str ⟨b, none⟩
  else if fieldType = "time.time" then
    (newBaseContainer decl envFile).map fun b => .time ⟨b, none⟩
  else .error (.unsupportedFieldType fieldType)

/-- The flag registration of each `NewXxx`: `flag.Bool`/`Int`/`Float64`/
`String` seed the pointer with `GetDefaultValue()`, while `NewTime` registers
a string flag seeded with the raw `defaultValue` tag. -/
def registerDefault : AnyContainer → AnyContainer
  | .bool c => .bool { c with flagValue := some c.GetDefaultValue }
  | .int c => .int { c with flagValue := some c.GetDefaultValue }
  | .float c => .float { c with flagValue := some c.GetDefaultValue }
  | .str c => .str { c with flagValue := some c.GetDefaultValue }
  | .time c => .time { c with flagValue := some c.base.defaultValue }

/-- The flag name a container registered. -/
def flagNameOf : AnyContainer → String
  | .bool c => c.base.flagName
  | .int c => c.base.flagName
  | .float c => c.base.flagName
  | .str c => c.base.flagName
  | .time c => c.base.flagName

/-- The `SetConfigValue(GetDefaultValue())` each `NewXxx` performs. -/
def defaultWrite : AnyContainer → GoValue
  | .bool c => .bool c.GetDefaultValue
  | .int c => .int c.GetDefaultValue
  | .float c => .float c.GetDefaultValue
  | .str c => .str c.GetDefaultValue
  | .time c => .time c.GetDefaultValue

/-- Outcome of `container.New`: a container plus the updated flag state, a
*returned* error (which `Behold` discards), or a panic of the `flag` package
(which escapes `Behold`). -/
inductive NewOutcome where
  | ok (c : AnyContainer) (fs : FlagSys)
  | constructionError (e : ContainerError)
  | goPanic (p : GoPanic)
  deriving DecidableEq, Repr

/-- `container.New`: dispatch on the field type, build the base container,
and, when flags are not yet parsed, register the flag with its default (the
`flag` package panics if the name is already defined). -/
def New (decl : FieldDecl) (envFile : List (String × String)) (fs : FlagSys) :
    NewOutcome :=
  match mkContainer decl envFile with
  | .error e => .constructionError e
  | .ok c =>
    if fs.parsed then .ok c fs
    else if flagNameOf c ∈ fs.defined then .goPanic (.flagRedefined (flagNameOf c))
    else .ok (registerDefault c) { fs with defined := fs.defined ++ [flagNameOf c] }

/-- The first loop of `Behold`: build one container per struct field with
`container.New`, discarding construction errors (`containers[index], _ =`),
and write each successful container's default into its field. -/
def constructContainers (envFile : List (String × String)) :
    List (FieldDecl × GoValue) → FlagSys →
    Except GoPanic (List (Option AnyContainer × GoValue) × FlagSys)
  | [], fs => .ok ([], fs)
  | p :: fields, fs =>
    match New p.1 envFile fs with
    | .goPanic gp => .error gp
    | .constructionError _ => do
      let (rest, fsOut) ← constructContainers envFile fields fs
      .ok ((none, p.2) :: rest, fsOut)
    | .ok c fs1 => do
      let (rest, fsOut) ← constructContainers envFile fields fs1
      .ok ((some c, defaultWrite c) :: rest, fsOut)

/-- Effect of `flag.Parse` on one registered pointer: a supplied command-line
value is parsed by the flag's type (exiting on a malformed value); an
unsupplied flag leaves the registered default in place.  `args` is the list
of supplied `-name=value` pairs of `os.Args[1:]` (flag-syntax errors and
unknown flag names, which make `flag.Parse` exit, are outside this model). -/
def parseFlagInto (args : List (String × String)) :
    AnyContainer → Except GoPanic AnyContainer
  | .bool c =>
    match c.flagValue with
    | none => .ok (.bool c)
    | some _ =>
      match args.lookup c.base.flagName with
      | none => .ok (.bool c)
      | some raw =>
        match parseBool raw with
        | some v => .ok (.bool { c with flagValue := some v })
        | none => .error (.badFlagSyntax c.base.flagName)
  | .int c =>
    match c.flagValue with
    | none => .ok (.int c)
    | some _ =>
      match args.lookup c.base.flagName with
      | none => .ok (.int c)
      | some raw =>
        match atoi raw with
        | some v => .ok (.int { c with flagValue := some v })
        | none => .error (.badFlagSyntax c.base.flagName)
  | .float c =>
    match c.flagValue with
    | none => .ok (.float c)
    | some _ =>
      match args.lookup c.base.flagName with
      | none => .ok (.float c)
      | some raw =>
        match parseFloat raw with
        | some v => .ok (.float { c with flagValue := some v })
        | none => .error (.badFlagSyntax c.base.flagName)
  | .str c =>
    match c.flagValue with
    | none => .ok (.str c)
    | some _ =>
      match args.lookup c.base.flagName with
      | none => .ok (.str c)
      | some raw => .ok (.str { c with flagValue := some raw })
  | .time c =>
    match c.flagValue with
    | none => .ok (.time c)
    | some _ =>
      match args.lookup c.base.flagName with
      | none => .ok (.time c)
      | some raw => .ok (.time { c with flagValue := some raw })

/-- `flag.Parse` over all containers of the pass. -/
def parsePhase (args : List (String × String)) :
    List (Option AnyContainer × GoValue) →
    Except GoPanic (List (Option AnyContainer × GoValue))
  | [] => .ok []
  | (some c, v) :: rest => do
    let c1 ← parseFlagInto args c
    let rest1 ← parsePhase args rest
    .ok ((some c1, v) :: rest1)
  | (none, v) :: rest => do
    let rest1 ← parsePhase args rest
    .ok ((none, v) :: rest1)

/-- The `switch typedContainer := c.(type)` of `Behold`'s second loop:
apply `applyValueWithPrecedence` at the container's type. -/
def applyContainer (osEnv : OsEnv) : AnyContainer → GoValue
  | .bool c => .bool (resolveBool c osEnv)
  | .int c => .int (resolveInt c osEnv)
  | .float c => .float (resolveFloat64 c osEnv)
  | .str c => .str (resolveString c osEnv)
  | .time c => .time (resolveTime c osEnv)

/-- `Behold`'s second loop: a nil container (failed construction) matches no
case of the type switch and leaves its field value untouched. -/
def resolvePhase (osEnv : OsEnv) :
    List (Option AnyContainer × GoValue) → List GoValue
  | [] => []
  | (some c, _) :: rest => applyContainer osEnv c :: resolvePhase osEnv rest
  | (none, v) :: rest => v :: resolvePhase osEnv rest

/-- `Behold`: construct a container per field (writing defaults), run
`flag.Parse` when `len(os.Args) > 1 && !flag.Parsed()`, then apply the
precedence pass.  `fields` pairs each declaration with the field's current
value in the caller's struct; the result is the list of final field values
plus the updated `flag` package state.  (Reading the `.env` file itself is
the external `env` package; its mapping enters here as `envFile`.) -/
def Behold (fields : List (FieldDecl × GoValue)) (osEnv : OsEnv)
    (envFile : List (String × String)) (args : List (String × String))
    (fs : FlagSys) : Except GoPanic (List GoValue × FlagSys) := do
  let (entries, fs1) ← constructContainers envFile fields fs
  let afterParse : Except GoPanic (List (Option AnyContainer × GoValue) × FlagSys) :=
    if args ≠ [] ∧ ¬fs1.parsed then do
      let entries1 ← parsePhase args entries
      .ok (entries1, { fs1 with parsed := true })
    else .ok (entries, fs1)
  let (entries2, fs2) ← afterParse
  .ok (resolvePhase osEnv entries2, fs2)

/-- Construction plus flag parsing for a single field on a fresh process
(`flag` state empty, flags not yet parsed): the container a first `Behold`
call would hold at resolution time, `none` if construction failed or the
supplied value was malformed. -/
def newParsedContainer (decl : FieldDecl) (envFile : List (String × String))
    (args : List (String × String)) : Option AnyContainer :=
  match New decl envFile ⟨false, []⟩ with
  | .ok c _ =>
    match parseFlagInto args c with
    | .ok c1 => some c1
    | .error _ => none
  | _ => none

/-- A `StartTime` timestamp field as in the repo's tests. -/
def c2Decl : FieldDecl :=
  ⟨"StartTime", "time.Time", true, some "start", "START_TIME",
   "2023-01-01T00:00:00Z", "Start time"⟩

/-- The container a fresh `Behold` run holds for `c2Decl` after the command
line supplied `-start=2023-01-01`. -/
def c2TimeContainer : TimeContainer :=
  ⟨⟨"2023-01-01T00:00:00Z", "Start time", [], "START_TIME", "StartTime", "start"⟩,
   some "2023-01-01"⟩

/-- A `StartTime` timestamp container whose environment variable holds an
unparseable value. -/
def c3TimeContainer : TimeContainer :=
  ⟨⟨"2023-01-01T00:00:00Z", "", [], "START_TIME", "StartTime", "start"⟩, none⟩

/-- The environment for the C3 counterexample. -/
def c3Env : OsEnv := fun n => if n = "START_TIME" then "notadate" else ""

/-- A `Host` string container whose env-file entry is the empty string. -/
def c4StrContainer : StringContainer :=
  ⟨⟨"localhost:8080", "", [("HOST", "")], "HOST", "Host", "host"⟩, none⟩

/-- The environment for the C4 counterexample (`HOST` unset, i.e. `""`). -/
def c4Env : OsEnv := fun _ => ""

/-- A bool field with default `"true"`, untouched sources. -/
def c6Bool : BoolContainer := ⟨⟨"true", "", [], "DEBUG", "Debug", "debug"⟩, some true⟩

/-- An int field with default `"9000"`, untouched sources. -/
def c6Int : IntContainer := ⟨⟨"9000", "", [], "PORT", "Port", "port"⟩, some 9000⟩

/-- A float64 field with default `"30.5"`, untouched sources. -/
def c6Float : Float64Container :=
  ⟨⟨"30.5", "", [], "TIMEOUT", "Timeout", "timeout"⟩, some (mkRat 61 2)⟩

/-- A string field with default `"localhost:8080"`, untouched sources. -/
def c6Str : StringContainer := ⟨⟨"localhost:8080", "", [], "HOST", "Host", "host"⟩, none⟩

/-- A timestamp field with default `"2023-01-01T00:00:00Z"`, untouched. -/
def c6Time : TimeContainer :=
  ⟨⟨"2023-01-01T00:00:00Z", "", [], "START_TIME", "StartTime", "start"⟩,
   some "2023-01-01T00:00:00Z"⟩

/-- The five type strings `container.New`'s switch accepts. -/
def supportedTypeNames : List String := ["bool", "int", "float64", "string", "time.time"]

/-- A `Host`-like string field whose declaration lacks the `flag` tag. -/
def c5NoFlagDecl : FieldDecl := ⟨"Host", "string", true, none, "HOST", "localhost:8080", ""⟩

/-- The entry a fresh first pass (flags not yet parsed) builds for one field:
failed construction keeps the incoming value; success registers the default
into the flag pointer and writes the parsed default into the field. -/
def freshEntry (envFile : List (String × String)) (p : FieldDecl × GoValue) :
    Option AnyContainer × GoValue :=
  match mkContainer p.1 envFile with
  | .error _ => (none, p.2)
  | .ok c => (some (registerDefault c), defaultWrite (registerDefault c))

/-- The entry a later pass (flags already parsed) builds for one field: the
container keeps its nil flag pointer, registration being skipped. -/
def unregEntry (envFile : List (String × String)) (p : FieldDecl × GoValue) :
    Option AnyContainer × GoValue :=
  match mkContainer p.1 envFile with
  | .error _ => (none, p.2)
  | .ok c => (some c, defaultWrite c)

/-- A `Host` string field as in the repo's tests. -/
def c9HostDecl : FieldDecl :=
  ⟨"Host", "string", true, some "host", "HOST", "localhost:8080", ""⟩

/-! ## Theorems -/

/-- The three sequential overwrites of `applyValueWithPrecedence` amount to a
highest-present-source choice: flag, else env file, else environment, else
the start value. -/
theorem applyValueWithPrecedence_cases {T : Type} (envV envFileV flagV : T × Bool)
    (d : T) :
    applyValueWithPrecedence envV envFileV flagV d =
      if flagV.2 then flagV.1
      else if envFileV.2 then envFileV.1
      else if envV.2 then envV.1
      else d := by
  unfold applyValueWithPrecedence
  by_cases hf : flagV.2 <;> by_cases hl : envFileV.2 <;> by_cases he : envV.2 <;>
    simp [hf, hl, he]

/-- C1: for every declared field of a supported type, after a single
resolution pass the field holds exactly one of its parsed default, its
environment-variable value, its env-file value, or its flag value, chosen by
fixed precedence: the flag value wins if present, else the env-file value if
present, else the environment value if present, else the parsed default. -/
theorem claim1_theorem (osEnv : OsEnv) (cb : BoolContainer) (ci : IntContainer)
    (cf : Float64Container) (cs : StringContainer) (ct : TimeContainer) :
    (resolveBool cb osEnv =
      if cb.GetFlagValue.2 then cb.GetFlagValue.1
      else if cb.GetEnvFileValue.2 then cb.GetEnvFileValue.1
      else if (cb.GetEnvValue osEnv).2 then (cb.GetEnvValue osEnv).1
      else cb.GetDefaultValue) ∧
    (resolveInt ci osEnv =
      if ci.GetFlagValue.2 then ci.GetFlagValue.1
      else if ci.GetEnvFileValue.2 then ci.GetEnvFileValue.1
      else if (ci.GetEnvValue osEnv).2 then (ci.GetEnvValue osEnv).1
      else ci.GetDefaultValue) ∧
    (resolveFloat64 cf osEnv =
      if cf.GetFlagValue.2 then cf.GetFlagValue.1
      else if cf.GetEnvFileValue.2 then cf.GetEnvFileValue.1
      else if (cf.GetEnvValue osEnv).2 then (cf.GetEnvValue osEnv).1
      else cf.GetDefaultValue) ∧
    (resolveString cs osEnv =
      if cs.GetFlagValue.2 then cs.GetFlagValue.1
      else if cs.GetEnvFileValue.2 then cs.GetEnvFileValue.1
      else if (cs.GetEnvValue osEnv).2 then (cs.GetEnvValue osEnv).1
      else cs.GetDefaultValue) ∧
    (resolveTime ct osEnv =
      if ct.GetFlagValue.2 then ct.GetFlagValue.1
      else if ct.GetEnvFileValue.2 then ct.GetEnvFileValue.1
      else if (ct.GetEnvValue osEnv).2 then (ct.GetEnvValue osEnv).1
      else ct.GetDefaultValue) :=
  ⟨applyValueWithPrecedence_cases _ _ _ _, applyValueWithPrecedence_cases _ _ _ _,
   applyValueWithPrecedence_cases _ _ _ _, applyValueWithPrecedence_cases _ _ _ _,
   applyValueWithPrecedence_cases _ _ _ _⟩

/-- C7: for every field, `GetDefaultValue` parses the declared default string
into the field's type; on parse failure it returns the type's zero value
(false / 0 / 0.0 / raw string never fails / zero timestamp).  The functions
are total, so no error can be raised to the caller. -/
theorem claim7_theorem :
    (∀ c : BoolContainer,
      (∀ v, parseBool c.base.defaultValue = some v → c.GetDefaultValue = v) ∧
      (parseBool c.base.defaultValue = none → c.GetDefaultValue = false)) ∧
    (∀ c : IntContainer,
      (∀ v, atoi c.base.defaultValue = some v → c.GetDefaultValue = v) ∧
      (atoi c.base.defaultValue = none → c.GetDefaultValue = 0)) ∧
    (∀ c : Float64Container,
      (∀ v, parseFloat c.base.defaultValue = some v → c.GetDefaultValue = v) ∧
      (parseFloat c.base.defaultValue = none → c.GetDefaultValue = 0)) ∧
    (∀ c : StringContainer, c.GetDefaultValue = c.base.defaultValue) ∧
    (∀ c : TimeContainer,
      (isTime c.base.defaultValue = true →
        c.GetDefaultValue = parseTime c.base.defaultValue) ∧
      (isTime c.base.defaultValue = false → c.GetDefaultValue = zeroTime)) := by
  refine ⟨fun c => ⟨fun v h => ?_, fun h => ?_⟩, fun c => ⟨fun v h => ?_, fun h => ?_⟩,
    fun c => ⟨fun v h => ?_, fun h => ?_⟩, fun c => rfl,
    fun c => ⟨fun h => ?_, fun h => ?_⟩⟩ <;>
    simp [BoolContainer.GetDefaultValue, IntContainer.GetDefaultValue,
      Float64Container.GetDefaultValue, TimeContainer.GetDefaultValue, h]

/-- C7 witness: concrete defaults, one per type, including a failing parse. -/
theorem claim7_witness :
    (BoolContainer.GetDefaultValue ⟨⟨"true", "", [], "", "F", "f"⟩, none⟩ = true) ∧
    (IntContainer.GetDefaultValue ⟨⟨"abc", "", [], "", "F", "f"⟩, none⟩ = 0) ∧
    (Float64Container.GetDefaultValue ⟨⟨"30.5", "", [], "", "F", "f"⟩, none⟩ = mkRat 61 2) ∧
    (StringContainer.GetDefaultValue ⟨⟨"localhost:8080", "", [], "", "F", "f"⟩, none⟩ =
      "localhost:8080") ∧
    (TimeContainer.GetDefaultValue ⟨⟨"nope", "", [], "", "F", "f"⟩, none⟩ = zeroTime) := by
  refine ⟨(claim7_theorem.1 _).1 true (by decide),
    (claim7_theorem.2.1 _).2 (by decide), ?_,
    claim7_theorem.2.2.2.1 _,
    (claim7_theorem.2.2.2.2 _).2 (by decide)⟩
  exact (claim7_theorem.2.2.1 _).1 (mkRat 61 2) (by decide)

/-- C8: timestamp parsing tries the six layouts in their fixed order — date
only, date space time, date `T` time, date `T` time `Z`, date `T` time with a
zone abbreviation, date `T` time with a numeric offset — the first layout
that matches determines the result, and when none matches the result is the
zero timestamp. -/
theorem claim8_theorem (s : String) :
    parseTime s =
      match parseLayoutDate s.toList, parseLayoutDateSpaceTime s.toList,
        parseLayoutDateTTime s.toList, parseLayoutDateTTimeZ s.toList,
        parseLayoutDateTTimeAbbrev s.toList, parseLayoutDateTTimeNumTZ s.toList with
      | some t, _, _, _, _, _ => t
      | none, some t, _, _, _, _ => t
      | none, none, some t, _, _, _ => t
      | none, none, none, some t, _, _ => t
      | none, none, none, none, some t, _ => t
      | none, none, none, none, none, some t => t
      | none, none, none, none, none, none => zeroTime := by
  unfold parseTime timeFormats
  cases h1 : parseLayoutDate s.data <;>
    cases h2 : parseLayoutDateSpaceTime s.data <;>
    cases h3 : parseLayoutDateTTime s.data <;>
    cases h4 : parseLayoutDateTTimeZ s.data <;>
    cases h5 : parseLayoutDateTTimeAbbrev s.data <;>
    cases h6 : parseLayoutDateTTimeNumTZ s.data <;>
    simp [firstParse, String.toList, h1, h2, h3, h4, h5, h6]

/-- C2 counterexample: for the timestamp type the claim fails.  The supplied
flag string `2023-01-01` parses to the same instant as the computed default
(midnight UTC of 2023-01-01), so the claim requires `present=false`, yet
`GetFlagValue` compares raw strings and reports `present=true`. -/
theorem claim2_counterexample :
    newParsedContainer c2Decl [] [("start", "2023-01-01")] =
      some (.time c2TimeContainer) ∧
    c2TimeContainer.GetFlagValue.2 = true ∧
    c2TimeContainer.GetFlagValue.1 = c2TimeContainer.GetDefaultValue := by
  decide

/-- C2 (amended): for bool, int, float64 and string fields, `GetFlagValue`
reports `present=true` iff the flag pointer's value differs from the computed
default; after a fresh construction-and-parse the pointer holds the supplied
flag's parsed value when one was supplied and the computed default otherwise,
so presence means a flag was supplied whose parsed value differs from the
computed default.  For timestamp fields the registered flag is a raw string
seeded with the raw default tag, and presence compares those raw strings, not
parsed values. -/
theorem claim2_theorem :
    (∀ (c : BoolContainer) (v : Bool), c.flagValue = some v →
      (c.GetFlagValue.2 = true ↔ v ≠ c.GetDefaultValue)) ∧
    (∀ (c : IntContainer) (v : Int), c.flagValue = some v →
      (c.GetFlagValue.2 = true ↔ v ≠ c.GetDefaultValue)) ∧
    (∀ (c : Float64Container) (v : Rat), c.flagValue = some v →
      (c.GetFlagValue.2 = true ↔ v ≠ c.GetDefaultValue)) ∧
    (∀ (c : StringContainer) (v : String), c.flagValue = some v →
      (c.GetFlagValue.2 = true ↔ v ≠ c.GetDefaultValue)) ∧
    (∀ (c : TimeContainer) (v : String), c.flagValue = some v →
      (c.GetFlagValue.2 = true ↔ v ≠ c.base.defaultValue)) ∧
    (∀ (decl : FieldDecl) (envFile : List (String × String)) (c : AnyContainer),
      mkContainer decl envFile = .ok c →
      New decl envFile ⟨false, []⟩ = .ok (registerDefault c) ⟨false, [flagNameOf c]⟩) ∧
    (∀ (b : BaseContainer) (p : Bool) (args : List (String × String)),
      args.lookup b.flagName = none →
      parseFlagInto args (.bool ⟨b, some p⟩) = .ok (.bool ⟨b, some p⟩)) ∧
    (∀ (b : BaseContainer) (p : Bool) (args : List (String × String)) (raw : String),
      args.lookup b.flagName = some raw →
      parseFlagInto args (.bool ⟨b, some p⟩) =
        match parseBool raw with
        | some v => .ok (.bool ⟨b, some v⟩)
        | none => .error (.badFlagSyntax b.flagName)) ∧
    (∀ (b : BaseContainer) (p : Int) (args : List (String × String)),
      args.lookup b.flagName = none →
      parseFlagInto args (.int ⟨b, some p⟩) = .ok (.int ⟨b, some p⟩)) ∧
    (∀ (b : BaseContainer) (p : Int) (args : List (String × String)) (raw : String),
      args.lookup b.flagName = some raw →
      parseFlagInto args (.int ⟨b, some p⟩) =
        match atoi raw with
        | some v => .ok (.int ⟨b, some v⟩)
        | none => .error (.badFlagSyntax b.flagName)) ∧
    (∀ (b : BaseContainer) (p : Rat) (args : List (String × String)),
      args.lookup b.flagName = none →
      parseFlagInto args (.float ⟨b, some p⟩) = .ok (.float ⟨b, some p⟩)) ∧
    (∀ (b : BaseContainer) (p : Rat) (args : List (String × String)) (raw : String),
      args.lookup b.flagName = some raw →
      parseFlagInto args (.float ⟨b, some p⟩) =
        match parseFloat raw with
        | some v => .ok (.float ⟨b, some v⟩)
        | none => .error (.badFlagSyntax b.flagName)) ∧
    (∀ (b : BaseContainer) (p : String) (args : List (String × String)),
      args.lookup b.flagName = none →
      parseFlagInto args (.str ⟨b, some p⟩) = .ok (.str ⟨b, some p⟩)) ∧
    (∀ (b : BaseContainer) (p : String) (args : List (String × String)) (raw : String),
      args.lookup b.flagName = some raw →
      parseFlagInto args (.str ⟨b, some p⟩) = .ok (.str ⟨b, some raw⟩)) ∧
    (∀ (b : BaseContainer) (p : String) (args : List (String × String)),
      args.lookup b.flagName = none →
      parseFlagInto args (.time ⟨b, some p⟩) = .ok (.time ⟨b, some p⟩)) ∧
    (∀ (b : BaseContainer) (p : String) (args : List (String × String)) (raw : String),
      args.lookup b.flagName = some raw →
      parseFlagInto args (.time ⟨b, some p⟩) = .ok (.time ⟨b, some raw⟩)) := by
  refine ⟨fun c v h => ?_, fun c v h => ?_, fun c v h => ?_, fun c v h => ?_,
    fun c v h => ?_, fun decl envFile c h => ?_,
    fun b p args h => ?_, fun b p args raw h => ?_, fun b p args h => ?_,
    fun b p args raw h => ?_, fun b p args h => ?_, fun b p args raw h => ?_,
    fun b p args h => ?_, fun b p args raw h => ?_, fun b p args h => ?_,
    fun b p args raw h => ?_⟩
  case _ => by_cases hv : v = c.GetDefaultValue <;>
    simp [BoolContainer.GetFlagValue, h, hv]
  case _ => by_cases hv : v = c.GetDefaultValue <;>
    simp [IntContainer.GetFlagValue, h, hv]
  case _ => by_cases hv : v = c.GetDefaultValue <;>
    simp [Float64Container.GetFlagValue, h, hv]
  case _ => by_cases hv : v = c.GetDefaultValue <;>
    simp [StringContainer.GetFlagValue, h, hv]
  case _ => by_cases hv : v = c.base.defaultValue <;>
    simp [TimeContainer.GetFlagValue, h, hv]
  case _ => simp [New, h]
  all_goals simp [parseFlagInto, h]

/-- C2 amended witness: concrete instances of the presence test, the fresh
registration, and the parse step. -/
theorem claim2_witness :
    ((BoolContainer.GetFlagValue ⟨⟨"false", "", [], "D", "F", "debug"⟩, some true⟩).2 = true ↔
      true ≠ BoolContainer.GetDefaultValue ⟨⟨"false", "", [], "D", "F", "debug"⟩, some true⟩) ∧
    ((TimeContainer.GetFlagValue c2TimeContainer).2 = true ↔
      "2023-01-01" ≠ c2TimeContainer.base.defaultValue) ∧
    New c2Decl [] ⟨false, []⟩ =
      .ok (registerDefault (.time ⟨⟨"2023-01-01T00:00:00Z", "Start time", [],
        "START_TIME", "StartTime", "start"⟩, none⟩)) ⟨false, ["start"]⟩ ∧
    parseFlagInto [("port", "7")] (.int ⟨⟨"9000", "", [], "PORT", "Port", "port"⟩, some 9000⟩) =
      .ok (.int ⟨⟨"9000", "", [], "PORT", "Port", "port"⟩, some 7⟩) :=
  ⟨claim2_theorem.1 _ true rfl,
   claim2_theorem.2.2.2.2.1 c2TimeContainer "2023-01-01" rfl,
   claim2_theorem.2.2.2.2.2.1 c2Decl [] _ (by decide),
   claim2_theorem.2.2.2.2.2.2.2.2.2.1 _ 9000 [("port", "7")] "7" (by decide)⟩

/-- C3 counterexample: for the timestamp type an unparseable environment
value is *not* treated as absent: `GetEnvValue` reports `present=true`, and
the field ends up holding the zero timestamp instead of retaining its parsed
default. -/
theorem claim3_counterexample :
    isTime "notadate" = false ∧
    (c3TimeContainer.GetEnvValue c3Env).2 = true ∧
    resolveTime c3TimeContainer c3Env = zeroTime ∧
    c3TimeContainer.GetDefaultValue ≠ zeroTime := by
  decide

/-- When no layout matches, `parseTime` yields the zero time. -/
theorem parseTime_of_isTime_eq_false {v : String} (h : isTime v = false) :
    parseTime v = zeroTime := by
  unfold parseTime
  unfold isTime at h
  cases hf : firstParse timeFormats v.toList with
  | none => rfl
  | some t => rw [hf] at h; simp at h

/-- C3 (amended): for bool, int and float64 the claim holds for the
environment and env-file sources — `GetEnvValue` is absent when the variable
is unset, empty, or fails to parse, and an env-file value that fails to parse
is absent; string values cannot fail to parse.  For timestamp fields,
however, any nonempty environment value (and any present env-file key, and
any supplied flag string differing from the raw default) is reported present,
with the zero timestamp substituted when no layout matches — the field then
holds the zero timestamp rather than retaining the lower-precedence value. -/
theorem claim3_theorem :
    (∀ (c : BoolContainer) (osEnv : OsEnv),
      ((c.GetEnvValue osEnv).2 = true ↔
        osEnv c.base.envName ≠ "" ∧ (parseBool (osEnv c.base.envName)).isSome = true)) ∧
    (∀ (c : IntContainer) (osEnv : OsEnv),
      ((c.GetEnvValue osEnv).2 = true ↔
        osEnv c.base.envName ≠ "" ∧ (atoi (osEnv c.base.envName)).isSome = true)) ∧
    (∀ (c : Float64Container) (osEnv : OsEnv),
      ((c.GetEnvValue osEnv).2 = true ↔
        osEnv c.base.envName ≠ "" ∧ (parseFloat (osEnv c.base.envName)).isSome = true)) ∧
    (∀ (c : StringContainer) (osEnv : OsEnv),
      ((c.GetEnvValue osEnv).2 = true ↔ osEnv c.base.envName ≠ "")) ∧
    (∀ (c : TimeContainer) (osEnv : OsEnv),
      ((c.GetEnvValue osEnv).2 = true ↔ osEnv c.base.envName ≠ "") ∧
      (osEnv c.base.envName ≠ "" →
        c.GetEnvValue osEnv = (parseTime (osEnv c.base.envName), true))) ∧
    (∀ (c : BoolContainer) (value : String),
      c.base.envFile.lookup c.base.envName = some value → parseBool value = none →
      c.GetEnvFileValue = (false, false)) ∧
    (∀ (c : IntContainer) (value : String),
      c.base.envFile.lookup c.base.envName = some value → atoi value = none →
      c.GetEnvFileValue = (0, false)) ∧
    (∀ (c : Float64Container) (value : String),
      c.base.envFile.lookup c.base.envName = some value → parseFloat value = none →
      c.GetEnvFileValue = (0, false)) ∧
    (∀ (c : TimeContainer) (value : String),
      c.base.envFile.lookup c.base.envName = some value → isTime value = false →
      c.GetEnvFileValue = (zeroTime, true)) ∧
    (∀ (c : TimeContainer) (v : String), c.flagValue = some v →
      v ≠ c.base.defaultValue → isTime v = false →
      c.GetFlagValue = (zeroTime, true)) := by
  refine ⟨fun c osEnv => ?_, fun c osEnv => ?_, fun c osEnv => ?_, fun c osEnv => ?_,
    fun c osEnv => ⟨?_, fun h => ?_⟩, fun c value h hp => ?_, fun c value h hp => ?_,
    fun c value h hp => ?_, fun c value h hp => ?_, fun c v h hv hp => ?_⟩
  case _ =>
    by_cases he : osEnv c.base.envName = "" <;>
      cases hp : parseBool (osEnv c.base.envName) <;>
      simp [BoolContainer.GetEnvValue, he, hp]
  case _ =>
    by_cases he : osEnv c.base.envName = "" <;>
      cases hp : atoi (osEnv c.base.envName) <;>
      simp [IntContainer.GetEnvValue, he, hp]
  case _ =>
    by_cases he : osEnv c.base.envName = "" <;>
      cases hp : parseFloat (osEnv c.base.envName) <;>
      simp [Float64Container.GetEnvValue, he, hp]
  case _ =>
    by_cases he : osEnv c.base.envName = "" <;>
      simp [StringContainer.GetEnvValue, he]
  case _ =>
    by_cases he : osEnv c.base.envName = "" <;>
      simp [TimeContainer.GetEnvValue, he]
  case _ => simp [TimeContainer.GetEnvValue, h]
  case _ => simp [BoolContainer.GetEnvFileValue, h, hp]
  case _ => simp [IntContainer.GetEnvFileValue, h, hp]
  case _ => simp [Float64Container.GetEnvFileValue, h, hp]
  case _ => simp [TimeContainer.GetEnvFileValue, h, parseTime_of_isTime_eq_false hp]
  case _ => simp [TimeContainer.GetFlagValue, h, hv, parseTime_of_isTime_eq_false hp]

/-- C3 amended witness: the env-file parse-failure rule and the timestamp
presence rule at concrete inputs. -/
theorem claim3_witness :
    BoolContainer.GetEnvFileValue ⟨⟨"false", "", [("DEBUG", "maybe")], "DEBUG", "F", "debug"⟩, none⟩ =
      (false, false) ∧
    TimeContainer.GetEnvFileValue ⟨⟨"", "", [("START_TIME", "junk")], "START_TIME", "F", "start"⟩, none⟩ =
      (zeroTime, true) ∧
    c3TimeContainer.GetEnvValue c3Env = (parseTime "notadate", true) :=
  ⟨claim3_theorem.2.2.2.2.2.1 _ "maybe" (by decide) (by decide),
   claim3_theorem.2.2.2.2.2.2.2.2.1 _ "junk" (by decide) (by decide),
   (claim3_theorem.2.2.2.2.1 c3TimeContainer c3Env).2 (by decide)⟩

/-- C4 counterexample: the same raw value `""` is absent for `GetEnvValue`
but *present* for `GetEnvFileValue` — env-file presence is key existence,
not the nonemptiness rule of `EnvValue` the claim asserts; the field then
resolves to `""` instead of its default. -/
theorem claim4_counterexample :
    c4StrContainer.GetEnvFileValue = ("", true) ∧
    (c4StrContainer.GetEnvValue c4Env).2 = false ∧
    resolveString c4StrContainer c4Env = "" := by
  decide

/-- C4 (amended): `GetEnvFileValue` matches `GetEnvValue`'s presence rules
only for bool, int and float64 (present iff the key exists and its value
parses; an empty value fails those parsers, hence absent).  For string and
timestamp fields env-file presence is key existence alone: an empty or (for
timestamps) unparseable value still yields `present=true`, unlike
`GetEnvValue`, which requires a nonempty value. -/
theorem claim4_theorem :
    (∀ c : BoolContainer, c.GetEnvFileValue.2 = true ↔
      ∃ value, c.base.envFile.lookup c.base.envName = some value ∧
        (parseBool value).isSome = true) ∧
    (∀ c : IntContainer, c.GetEnvFileValue.2 = true ↔
      ∃ value, c.base.envFile.lookup c.base.envName = some value ∧
        (atoi value).isSome = true) ∧
    (∀ c : Float64Container, c.GetEnvFileValue.2 = true ↔
      ∃ value, c.base.envFile.lookup c.base.envName = some value ∧
        (parseFloat value).isSome = true) ∧
    (∀ c : StringContainer, c.GetEnvFileValue.2 = true ↔
      (c.base.envFile.lookup c.base.envName).isSome = true) ∧
    (∀ c : TimeContainer, c.GetEnvFileValue.2 = true ↔
      (c.base.envFile.lookup c.base.envName).isSome = true) := by
  refine ⟨fun c => ?_, fun c => ?_, fun c => ?_, fun c => ?_, fun c => ?_⟩
  case _ =>
    cases h : c.base.envFile.lookup c.base.envName with
    | none => simp [BoolContainer.GetEnvFileValue, h]
    | some value =>
      cases hp : parseBool value <;> simp [BoolContainer.GetEnvFileValue, h, hp]
  case _ =>
    cases h : c.base.envFile.lookup c.base.envName with
    | none => simp [IntContainer.GetEnvFileValue, h]
    | some value =>
      cases hp : atoi value <;> simp [IntContainer.GetEnvFileValue, h, hp]
  case _ =>
    cases h : c.base.envFile.lookup c.base.envName with
    | none => simp [Float64Container.GetEnvFileValue, h]
    | some value =>
      cases hp : parseFloat value <;> simp [Float64Container.GetEnvFileValue, h, hp]
  case _ =>
    cases h : c.base.envFile.lookup c.base.envName <;>
      simp [StringContainer.GetEnvFileValue, h]
  case _ =>
    cases h : c.base.envFile.lookup c.base.envName <;>
      simp [TimeContainer.GetEnvFileValue, h]

/-- C6: for every field with no environment variable set, no env-file entry,
and no flag override present (the flag pointer is nil or still holds its
registered default), the resolved value equals the declared default string
parsed into the field's type. -/
theorem claim6_theorem :
    (∀ (c : BoolContainer) (osEnv : OsEnv) (v : Bool),
      osEnv c.base.envName = "" →
      c.base.envFile.lookup c.base.envName = none →
      (c.flagValue = none ∨ c.flagValue = some c.GetDefaultValue) →
      parseBool c.base.defaultValue = some v →
      resolveBool c osEnv = v) ∧
    (∀ (c : IntContainer) (osEnv : OsEnv) (v : Int),
      osEnv c.base.envName = "" →
      c.base.envFile.lookup c.base.envName = none →
      (c.flagValue = none ∨ c.flagValue = some c.GetDefaultValue) →
      atoi c.base.defaultValue = some v →
      resolveInt c osEnv = v) ∧
    (∀ (c : Float64Container) (osEnv : OsEnv) (v : Rat),
      osEnv c.base.envName = "" →
      c.base.envFile.lookup c.base.envName = none →
      (c.flagValue = none ∨ c.flagValue = some c.GetDefaultValue) →
      parseFloat c.base.defaultValue = some v →
      resolveFloat64 c osEnv = v) ∧
    (∀ (c : StringContainer) (osEnv : OsEnv),
      osEnv c.base.envName = "" →
      c.base.envFile.lookup c.base.envName = none →
      (c.flagValue = none ∨ c.flagValue = some c.GetDefaultValue) →
      resolveString c osEnv = c.base.defaultValue) ∧
    (∀ (c : TimeContainer) (osEnv : OsEnv),
      osEnv c.base.envName = "" →
      c.base.envFile.lookup c.base.envName = none →
      (c.flagValue = none ∨ c.flagValue = some c.base.defaultValue) →
      isTime c.base.defaultValue = true →
      resolveTime c osEnv = parseTime c.base.defaultValue) := by
  refine ⟨fun c osEnv v h1 h2 h3 h4 => ?_, fun c osEnv v h1 h2 h3 h4 => ?_,
    fun c osEnv v h1 h2 h3 h4 => ?_, fun c osEnv h1 h2 h3 => ?_,
    fun c osEnv h1 h2 h3 h4 => ?_⟩
  case _ => rcases h3 with h3 | h3 <;>
    simp [resolveBool, applyValueWithPrecedence, BoolContainer.GetEnvValue,
      BoolContainer.GetEnvFileValue, BoolContainer.GetFlagValue,
      BoolContainer.GetDefaultValue, h1, h2, h3, h4]
  case _ => rcases h3 with h3 | h3 <;>
    simp [resolveInt, applyValueWithPrecedence, IntContainer.GetEnvValue,
      IntContainer.GetEnvFileValue, IntContainer.GetFlagValue,
      IntContainer.GetDefaultValue, h1, h2, h3, h4]
  case _ => rcases h3 with h3 | h3 <;>
    simp [resolveFloat64, applyValueWithPrecedence, Float64Container.GetEnvValue,
      Float64Container.GetEnvFileValue, Float64Container.GetFlagValue,
      Float64Container.GetDefaultValue, h1, h2, h3, h4]
  case _ => rcases h3 with h3 | h3 <;>
    simp [resolveString, applyValueWithPrecedence, StringContainer.GetEnvValue,
      StringContainer.GetEnvFileValue, StringContainer.GetFlagValue,
      StringContainer.GetDefaultValue, h1, h2, h3]
  case _ => rcases h3 with h3 | h3 <;>
    simp [resolveTime, applyValueWithPrecedence, TimeContainer.GetEnvValue,
      TimeContainer.GetEnvFileValue, TimeContainer.GetFlagValue,
      TimeContainer.GetDefaultValue, h1, h2, h3, h4]

/-- C6 witness: one concrete default-only resolution per supported type. -/
theorem claim6_witness :
    resolveBool c6Bool (fun _ => "") = true ∧
    resolveInt c6Int (fun _ => "") = 9000 ∧
    resolveFloat64 c6Float (fun _ => "") = mkRat 61 2 ∧
    resolveString c6Str (fun _ => "") = "localhost:8080" ∧
    resolveTime c6Time (fun _ => "") = parseTime "2023-01-01T00:00:00Z" :=
  ⟨claim6_theorem.1 c6Bool _ true rfl rfl (Or.inr (by decide)) (by decide),
   claim6_theorem.2.1 c6Int _ 9000 rfl rfl (Or.inr (by decide)) (by decide),
   claim6_theorem.2.2.1 c6Float _ (mkRat 61 2) rfl rfl (Or.inr (by decide)) (by decide),
   claim6_theorem.2.2.2.1 c6Str _ rfl rfl (Or.inl rfl),
   claim6_theorem.2.2.2.2 c6Time _ rfl rfl (Or.inr rfl) (by decide)⟩

/-- C5 counterexample: a field without a flag-name declaration does *not*
make the resolution pass fail.  `container.New` returns `ErrNoFlagName`, but
`Behold` discards the error (`containers[index], _ = ...`) and completes
without surfacing anything; the field is silently dropped. -/
theorem claim5_counterexample :
    New c5NoFlagDecl [] ⟨false, []⟩ = .constructionError .errNoFlagName ∧
    Behold [(c5NoFlagDecl, .str "")] (fun _ => "") [] [] ⟨false, []⟩ =
      .ok ([.str ""], ⟨false, []⟩) := by
  decide

/-- C5 (amended): `container.New` does return an error naming the offending
problem — `ErrNoFlagName` for a missing flag tag, `ErrCantSet` for an
unsettable field, and "unsupported field type" naming the type — but `Behold`
discards the error: the pass completes without failing, silently skipping the
offending field while the remaining fields resolve normally. -/
theorem claim5_theorem :
    (∀ (decl : FieldDecl) (envFile : List (String × String)) (fs : FlagSys),
      toLowerAscii decl.typeName ∈ supportedTypeNames → decl.canSet = true →
      decl.flagTag = none →
      New decl envFile fs = .constructionError .errNoFlagName) ∧
    (∀ (decl : FieldDecl) (envFile : List (String × String)) (fs : FlagSys),
      toLowerAscii decl.typeName ∉ supportedTypeNames →
      New decl envFile fs =
        .constructionError (.unsupportedFieldType (toLowerAscii decl.typeName))) ∧
    (∀ (decl : FieldDecl) (envFile : List (String × String)) (fs : FlagSys),
      toLowerAscii decl.typeName ∈ supportedTypeNames → decl.canSet = false →
      New decl envFile fs = .constructionError .errCantSet) ∧
    Behold [(⟨"Extra", "uint32", true, some "extra", "", "5", ""⟩, .int 0),
            (⟨"Port", "int", true, some "port", "PORT", "9000", ""⟩, .int 0)]
      (fun _ => "") [] [] ⟨false, []⟩ = .ok ([.int 0, .int 9000], ⟨false, ["port"]⟩) := by
  refine ⟨fun decl envFile fs hmem hcan hflag => ?_,
    fun decl envFile fs hmem => ?_, fun decl envFile fs hmem hcan => ?_, by decide⟩
  case _ =>
    simp only [supportedTypeNames, List.mem_cons, List.not_mem_nil, or_false] at hmem
    rcases hmem with h | h | h | h | h <;>
      simp [New, mkContainer, newBaseContainer, h, hcan, hflag, Except.map]
  case _ =>
    simp only [supportedTypeNames, List.mem_cons, List.not_mem_nil, or_false,
      not_or] at hmem
    obtain ⟨h1, h2, h3, h4, h5⟩ := hmem
    simp [New, mkContainer, h1, h2, h3, h4, h5]
  case _ =>
    simp only [supportedTypeNames, List.mem_cons, List.not_mem_nil, or_false] at hmem
    rcases hmem with h | h | h | h | h <;>
      simp [New, mkContainer, newBaseContainer, h, hcan, Except.map]

/-- C5 amended witness: each construction error at a concrete declaration. -/
theorem claim5_witness :
    New ⟨"Name", "string", true, none, "NAME", "x", ""⟩ [] ⟨false, []⟩ =
      .constructionError .errNoFlagName ∧
    New ⟨"Count", "uint32", true, some "count", "", "", ""⟩ [] ⟨true, []⟩ =
      .constructionError (.unsupportedFieldType (toLowerAscii "uint32")) ∧
    New ⟨"hidden", "bool", false, some "hidden", "", "", ""⟩ [] ⟨false, []⟩ =
      .constructionError .errCantSet :=
  ⟨claim5_theorem.1 _ [] _ (by decide) rfl rfl,
   claim5_theorem.2.1 _ [] _ (by decide),
   claim5_theorem.2.2.1 _ [] _ (by decide) rfl⟩

/-- A field whose container construction fails yields a nil-container entry
carrying the field's incoming value. -/
theorem constructContainers_get_bad (envFile : List (String × String)) :
    ∀ (fields : List (FieldDecl × GoValue)) (fs : FlagSys)
      (entries : List (Option AnyContainer × GoValue)) (fsOut : FlagSys)
      (i : Nat) (decl : FieldDecl) (v : GoValue) (e : ContainerError),
      constructContainers envFile fields fs = .ok (entries, fsOut) →
      fields.get? i = some (decl, v) →
      mkContainer decl envFile = .error e →
      entries.get? i = some (none, v) := by
  intro fields
  induction fields with
  | nil => intro fs entries fsOut i decl v e hc hget hmk; simp at hget
  | cons p rest ih =>
    intro fs entries fsOut i decl v e hc hget hmk
    cases hn : New p.1 envFile fs with
    | goPanic gp => simp [constructContainers, hn] at hc
    | constructionError ce =>
      simp only [constructContainers, hn] at hc
      cases hrec : constructContainers envFile rest fs with
      | error gp => rw [hrec] at hc; simp [Bind.bind, Except.bind] at hc
      | ok pr =>
        obtain ⟨entries2, fs2⟩ := pr
        rw [hrec] at hc
        simp only [Bind.bind, Except.bind, Except.ok.injEq, Prod.mk.injEq] at hc
        obtain ⟨hentries, hfs⟩ := hc
        cases i with
        | zero =>
          simp only [List.get?_cons_zero, Option.some.injEq] at hget
          rw [← hentries]
          simp [hget]
        | succ n =>
          rw [← hentries]
          simp only [List.get?_cons_succ] at hget ⊢
          exact ih fs entries2 fs2 n decl v e hrec hget hmk
    | ok c fs1 =>
      cases i with
      | zero =>
        simp only [List.get?_cons_zero, Option.some.injEq] at hget
        unfold New at hn
        rw [show p.1 = decl from congrArg Prod.fst hget, hmk] at hn
        simp at hn
      | succ n =>
        simp only [constructContainers, hn] at hc
        cases hrec : constructContainers envFile rest fs1 with
        | error gp => rw [hrec] at hc; simp [Bind.bind, Except.bind] at hc
        | ok pr =>
          obtain ⟨entries2, fs2⟩ := pr
          rw [hrec] at hc
          simp only [Bind.bind, Except.bind, Except.ok.injEq, Prod.mk.injEq] at hc
          obtain ⟨hentries, hfs⟩ := hc
          rw [← hentries]
          simp only [List.get?_cons_succ] at hget ⊢
          exact ih fs1 entries2 fs2 n decl v e hrec hget hmk

/-- `flag.Parse` leaves nil-container entries untouched, positionally. -/
theorem parsePhase_get_none (args : List (String × String)) :
    ∀ (entries entries1 : List (Option AnyContainer × GoValue)) (i : Nat)
      (v : GoValue),
      parsePhase args entries = .ok entries1 →
      entries.get? i = some (none, v) →
      entries1.get? i = some (none, v) := by
  intro entries
  induction entries with
  | nil =>
    intro e1 i v hp hget
    simp at hget
  | cons hd rest ih =>
    intro e1 i v hp hget
    obtain ⟨oc, w⟩ := hd
    cases oc with
    | some c =>
      simp only [parsePhase] at hp
      cases hpf : parseFlagInto args c with
      | error gp => rw [hpf] at hp; simp [Bind.bind, Except.bind] at hp
      | ok c1 =>
        rw [hpf] at hp
        cases hrec : parsePhase args rest with
        | error gp => rw [hrec] at hp; simp [Bind.bind, Except.bind] at hp
        | ok rest1 =>
          rw [hrec] at hp
          simp only [Bind.bind, Except.bind, Except.ok.injEq] at hp
          cases i with
          | zero => simp at hget
          | succ n =>
            rw [← hp]
            simp only [List.get?_cons_succ] at hget ⊢
            exact ih rest1 n v hrec hget
    | none =>
      simp only [parsePhase] at hp
      cases hrec : parsePhase args rest with
      | error gp => rw [hrec] at hp; simp [Bind.bind, Except.bind] at hp
      | ok rest1 =>
        rw [hrec] at hp
        simp only [Bind.bind, Except.bind, Except.ok.injEq] at hp
        cases i with
        | zero =>
          simp only [List.get?_cons_zero, Option.some.injEq] at hget
          rw [← hp]
          simp [hget]
        | succ n =>
          rw [← hp]
          simp only [List.get?_cons_succ] at hget ⊢
          exact ih rest1 n v hrec hget

/-- The resolution loop keeps a nil-container entry's value, positionally. -/
theorem resolvePhase_get_none (osEnv : OsEnv) :
    ∀ (entries : List (Option AnyContainer × GoValue)) (i : Nat) (v : GoValue),
      entries.get? i = some (none, v) →
      (resolvePhase osEnv entries).get? i = some v := by
  intro entries
  induction entries with
  | nil => intro i v hget; simp at hget
  | cons hd rest ih =>
    intro i v hget
    obtain ⟨oc, w⟩ := hd
    cases oc with
    | some c =>
      cases i with
      | zero => simp at hget
      | succ n =>
        simp only [List.get?_cons_succ] at hget
        simpa [resolvePhase] using ih n v hget
    | none =>
      cases i with
      | zero =>
        simp only [List.get?_cons_zero, Option.some.injEq, Prod.mk.injEq] at hget
        simp [resolvePhase, hget]
      | succ n =>
        simp only [List.get?_cons_succ] at hget
        simpa [resolvePhase] using ih n v hget

/-- C10: a field whose container construction fails (unsettable field,
missing flag tag, or unsupported type) is left completely untouched by the
resolution pass — not even its default is written, so after the pass it
still holds whatever value the caller's struct started with (the language
zero value for a freshly zeroed struct). -/
theorem claim10_theorem
    (fields : List (FieldDecl × GoValue)) (osEnv : OsEnv)
    (envFile args : List (String × String)) (fs : FlagSys)
    (vals : List GoValue) (fsOut : FlagSys) (i : Nat) (decl : FieldDecl)
    (v : GoValue) (e : ContainerError) :
    Behold fields osEnv envFile args fs = .ok (vals, fsOut) →
    fields.get? i = some (decl, v) →
    mkContainer decl envFile = .error e →
    vals.get? i = some v := by
  intro hB hget hmk
  unfold Behold at hB
  cases hc : constructContainers envFile fields fs with
  | error gp => rw [hc] at hB; simp [Bind.bind, Except.bind] at hB
  | ok pr =>
    obtain ⟨entries, fs1⟩ := pr
    rw [hc] at hB
    simp only [Bind.bind, Except.bind] at hB
    have hent : entries.get? i = some (none, v) :=
      constructContainers_get_bad envFile fields fs entries fs1 i decl v e hc hget hmk
    by_cases hif : args ≠ [] ∧ ¬fs1.parsed
    · rw [if_pos hif] at hB
      cases hp : parsePhase args entries with
      | error gp => rw [hp] at hB; simp [Bind.bind, Except.bind] at hB
      | ok entries1 =>
        rw [hp] at hB
        simp only [Bind.bind, Except.bind, Except.ok.injEq, Prod.mk.injEq] at hB
        obtain ⟨hvals, hfs⟩ := hB
        rw [← hvals]
        exact resolvePhase_get_none osEnv entries1 i v
          (parsePhase_get_none args entries entries1 i v hp hent)
    · rw [if_neg hif] at hB
      simp only [Except.ok.injEq, Prod.mk.injEq] at hB
      obtain ⟨hvals, hfs⟩ := hB
      rw [← hvals]
      exact resolvePhase_get_none osEnv entries i v hent

/-- C10 witness: a private (unsettable) field among good fields keeps its
zero value through a full `Behold` run. -/
theorem claim10_witness :
    Behold [(⟨"secret", "string", false, some "secret", "", "s", ""⟩, .str ""),
            (⟨"Port", "int", true, some "port", "PORT", "9000", ""⟩, .int 0)]
      (fun _ => "") [] [] ⟨false, []⟩ = .ok ([.str "", .int 9000], ⟨false, ["port"]⟩) ∧
    [GoValue.str "", GoValue.int 9000].get? 0 = some (.str "") :=
  ⟨by decide,
   claim10_theorem
     [(⟨"secret", "string", false, some "secret", "", "s", ""⟩, .str ""),
      (⟨"Port", "int", true, some "port", "PORT", "9000", ""⟩, .int 0)]
     (fun _ => "") [] [] ⟨false, []⟩ [.str "", .int 9000] ⟨false, ["port"]⟩
     0 ⟨"secret", "string", false, some "secret", "", "s", ""⟩ (.str "")
     .errCantSet (by decide) rfl (by decide)⟩

/-- `container.New` never flips the `flag.Parsed()` bit. -/
theorem New_ok_parsed {decl : FieldDecl} {envFile : List (String × String)}
    {fs : FlagSys} {c : AnyContainer} {fs1 : FlagSys}
    (h : New decl envFile fs = .ok c fs1) : fs1.parsed = fs.parsed := by
  unfold New at h
  split at h
  · simp at h
  · split at h
    · injection h with h1 h2
      rw [← h2]
    · split at h
      · simp at h
      · injection h with h1 h2
        rw [← h2]

/-- With flags already parsed, construction is pure: every field gets its
nil-pointer container and the flag state is unchanged. -/
theorem constructContainers_parsed_true (envFile : List (String × String)) :
    ∀ (fields : List (FieldDecl × GoValue)) (fs : FlagSys), fs.parsed = true →
      constructContainers envFile fields fs =
        .ok (fields.map (unregEntry envFile), fs) := by
  intro fields
  induction fields with
  | nil => intro fs hp; simp [constructContainers]
  | cons p rest ih =>
    intro fs hp
    cases hm : mkContainer p.1 envFile with
    | error e =>
      have hn : New p.1 envFile fs = .constructionError e := by simp [New, hm]
      simp [constructContainers, hn, ih fs hp, Bind.bind, Except.bind, unregEntry, hm]
    | ok c =>
      have hn : New p.1 envFile fs = .ok c fs := by simp [New, hm, hp]
      simp [constructContainers, hn, ih fs hp, Bind.bind, Except.bind, unregEntry, hm]

/-- A successful construction pass from a fresh (unparsed) flag state builds
exactly the `freshEntry` per field and leaves flags unparsed. -/
theorem constructContainers_fresh (envFile : List (String × String)) :
    ∀ (fields : List (FieldDecl × GoValue)) (fs : FlagSys)
      (entries : List (Option AnyContainer × GoValue)) (fsOut : FlagSys),
      fs.parsed = false →
      constructContainers envFile fields fs = .ok (entries, fsOut) →
      entries = fields.map (freshEntry envFile) ∧ fsOut.parsed = false := by
  intro fields
  induction fields with
  | nil =>
    intro fs entries fsOut hp hc
    simp only [constructContainers, Except.ok.injEq, Prod.mk.injEq] at hc
    obtain ⟨h1, h2⟩ := hc
    constructor
    · rw [← h1]; rfl
    · rw [← h2]; exact hp
  | cons p rest ih =>
    intro fs entries fsOut hp hc
    cases hm : mkContainer p.1 envFile with
    | error e =>
      have hn : New p.1 envFile fs = .constructionError e := by simp [New, hm]
      simp only [constructContainers, hn] at hc
      cases hrec : constructContainers envFile rest fs with
      | error gp => rw [hrec] at hc; simp [Bind.bind, Except.bind] at hc
      | ok pr =>
        obtain ⟨entries2, fs2⟩ := pr
        rw [hrec] at hc
        simp only [Bind.bind, Except.bind, Except.ok.injEq, Prod.mk.injEq] at hc
        obtain ⟨hent, hfs⟩ := hc
        obtain ⟨ha, hb⟩ := ih fs entries2 fs2 hp hrec
        constructor
        · rw [← hent, ha]; simp [freshEntry, hm]
        · rw [← hfs]; exact hb
    | ok c =>
      by_cases hd : flagNameOf c ∈ fs.defined
      · have hn : New p.1 envFile fs = .goPanic (.flagRedefined (flagNameOf c)) := by
          simp [New, hm, hp, hd]
        simp [constructContainers, hn] at hc
      · have hn : New p.1 envFile fs =
            .ok (registerDefault c) { fs with defined := fs.defined ++ [flagNameOf c] } := by
          simp [New, hm, hp, hd]
        simp only [constructContainers, hn] at hc
        cases hrec : constructContainers envFile rest
            { fs with defined := fs.defined ++ [flagNameOf c] } with
        | error gp => rw [hrec] at hc; simp [Bind.bind, Except.bind] at hc
        | ok pr =>
          obtain ⟨entries2, fs2⟩ := pr
          rw [hrec] at hc
          simp only [Bind.bind, Except.bind, Except.ok.injEq, Prod.mk.injEq] at hc
          obtain ⟨hent, hfs⟩ := hc
          obtain ⟨ha, hb⟩ := ih { fs with defined := fs.defined ++ [flagNameOf c] }
            entries2 fs2 hp hrec
          constructor
          · rw [← hent, ha]; simp [freshEntry, hm]
          · rw [← hfs]; exact hb

/-- When no supplied flag changes any freshly registered pointer, the parse
phase is the identity on the fresh entries. -/
theorem parsePhase_fresh_noop (envFile args : List (String × String)) :
    ∀ (fields : List (FieldDecl × GoValue)),
      (∀ p ∈ fields, ∀ c : AnyContainer, mkContainer p.1 envFile = .ok c →
        parseFlagInto args (registerDefault c) = .ok (registerDefault c)) →
      parsePhase args (fields.map (freshEntry envFile)) =
        .ok (fields.map (freshEntry envFile)) := by
  intro fields
  induction fields with
  | nil => intro h; simp [parsePhase]
  | cons p rest ih =>
    intro h
    have hrec := ih fun q hq => h q (List.mem_cons_of_mem p hq)
    cases hm : mkContainer p.1 envFile with
    | error e =>
      simp [freshEntry, hm, parsePhase, hrec, Bind.bind, Except.bind]
    | ok c =>
      have hpf := h p (List.mem_cons_self p rest) c hm
      simp [freshEntry, hm, parsePhase, hpf, hrec, Bind.bind, Except.bind]

/-- A bool pointer holding the computed default resolves like a nil one. -/
theorem resolveBool_registered_default (b : BaseContainer) (osEnv : OsEnv) :
    resolveBool ⟨b, some (BoolContainer.GetDefaultValue ⟨b, none⟩)⟩ osEnv =
      resolveBool ⟨b, none⟩ osEnv := by
  simp [resolveBool, applyValueWithPrecedence, BoolContainer.GetFlagValue,
    BoolContainer.GetDefaultValue, BoolContainer.GetEnvValue,
    BoolContainer.GetEnvFileValue]

/-- An int pointer holding the computed default resolves like a nil one. -/
theorem resolveInt_registered_default (b : BaseContainer) (osEnv : OsEnv) :
    resolveInt ⟨b, some (IntContainer.GetDefaultValue ⟨b, none⟩)⟩ osEnv =
      resolveInt ⟨b, none⟩ osEnv := by
  simp [resolveInt, applyValueWithPrecedence, IntContainer.GetFlagValue,
    IntContainer.GetDefaultValue, IntContainer.GetEnvValue,
    IntContainer.GetEnvFileValue]

/-- A float pointer holding the computed default resolves like a nil one. -/
theorem resolveFloat64_registered_default (b : BaseContainer) (osEnv : OsEnv) :
    resolveFloat64 ⟨b, some (Float64Container.GetDefaultValue ⟨b, none⟩)⟩ osEnv =
      resolveFloat64 ⟨b, none⟩ osEnv := by
  simp [resolveFloat64, applyValueWithPrecedence, Float64Container.GetFlagValue,
    Float64Container.GetDefaultValue, Float64Container.GetEnvValue,
    Float64Container.GetEnvFileValue]

/-- A string pointer holding the computed default resolves like a nil one. -/
theorem resolveString_registered_default (b : BaseContainer) (osEnv : OsEnv) :
    resolveString ⟨b, some (StringContainer.GetDefaultValue ⟨b, none⟩)⟩ osEnv =
      resolveString ⟨b, none⟩ osEnv := by
  simp [resolveString, applyValueWithPrecedence, StringContainer.GetFlagValue,
    StringContainer.GetDefaultValue, StringContainer.GetEnvValue,
    StringContainer.GetEnvFileValue]

/-- A time pointer holding the raw default string resolves like a nil one. -/
theorem resolveTime_registered_default (b : BaseContainer) (osEnv : OsEnv) :
    resolveTime ⟨b, some b.defaultValue⟩ osEnv = resolveTime ⟨b, none⟩ osEnv := by
  simp [resolveTime, applyValueWithPrecedence, TimeContainer.GetFlagValue,
    TimeContainer.GetDefaultValue, TimeContainer.GetEnvValue,
    TimeContainer.GetEnvFileValue]

/-- Registering the default into a freshly built container does not change
how it resolves. -/
theorem applyContainer_registerDefault (osEnv : OsEnv) (decl : FieldDecl)
    (envFile : List (String × String)) (c : AnyContainer)
    (hm : mkContainer decl envFile = .ok c) :
    applyContainer osEnv (registerDefault c) = applyContainer osEnv c := by
  unfold mkContainer at hm
  by_cases h1 : toLowerAscii decl.typeName = "bool"
  · rw [if_pos h1] at hm
    cases hb : newBaseContainer decl envFile with
    | error e => rw [hb] at hm; simp [Except.map] at hm
    | ok b =>
      rw [hb] at hm
      simp only [Except.map, Except.ok.injEq] at hm
      subst hm
      simp [registerDefault, applyContainer, resolveBool_registered_default]
  · rw [if_neg h1] at hm
    by_cases h2 : toLowerAscii decl.typeName = "int"
    · rw [if_pos h2] at hm
      cases hb : newBaseContainer decl envFile with
      | error e => rw [hb] at hm; simp [Except.map] at hm
      | ok b =>
        rw [hb] at hm
        simp only [Except.map, Except.ok.injEq] at hm
        subst hm
        simp [registerDefault, applyContainer, resolveInt_registered_default]
    · rw [if_neg h2] at hm
      by_cases h3 : toLowerAscii decl.typeName = "float64"
      · rw [if_pos h3] at hm
        cases hb : newBaseContainer decl envFile with
        | error e => rw [hb] at hm; simp [Except.map] at hm
        | ok b =>
          rw [hb] at hm
          simp only [Except.map, Except.ok.injEq] at hm
          subst hm
          simp [registerDefault, applyContainer, resolveFloat64_registered_default]
      · rw [if_neg h3] at hm
        by_cases h4 : toLowerAscii decl.typeName = "string"
        · rw [if_pos h4] at hm
          cases hb : newBaseContainer decl envFile with
          | error e => rw [hb] at hm; simp [Except.map] at hm
          | ok b =>
            rw [hb] at hm
            simp only [Except.map, Except.ok.injEq] at hm
            subst hm
            simp [registerDefault, applyContainer, resolveString_registered_default]
        · rw [if_neg h4] at hm
          by_cases h5 : toLowerAscii decl.typeName = "time.time"
          · rw [if_pos h5] at hm
            cases hb : newBaseContainer decl envFile with
            | error e => rw [hb] at hm; simp [Except.map] at hm
            | ok b =>
              rw [hb] at hm
              simp only [Except.map, Except.ok.injEq] at hm
              subst hm
              simp [registerDefault, applyContainer, resolveTime_registered_default]
          · rw [if_neg h5] at hm
            simp at hm

/-- Fresh-run entries and later-run entries resolve to the same values. -/
theorem resolvePhase_fresh_eq_unreg (osEnv : OsEnv)
    (envFile : List (String × String)) :
    ∀ fields : List (FieldDecl × GoValue),
      resolvePhase osEnv (fields.map (freshEntry envFile)) =
        resolvePhase osEnv (fields.map (unregEntry envFile)) := by
  intro fields
  induction fields with
  | nil => rfl
  | cons p rest ih =>
    cases hm : mkContainer p.1 envFile with
    | error e => simp [freshEntry, unregEntry, hm, resolvePhase, ih]
    | ok c =>
      simp [freshEntry, unregEntry, hm, resolvePhase, ih,
        applyContainer_registerDefault osEnv p.1 envFile c hm]

/-- C9 counterexample: with `-host=flag.com:4000` supplied, a first pass
resolves `Host` to the flag value, but a second pass in the same process on a
fresh object (flags now parsed, so containers get nil pointers) silently
drops the flag and yields the default — the two results differ. -/
theorem claim9_counterexample :
    Behold [(c9HostDecl, .str "")] (fun _ => "") [] [("host", "flag.com:4000")]
        ⟨false, []⟩ =
      .ok ([.str "flag.com:4000"], ⟨true, ["host"]⟩) ∧
    Behold [(c9HostDecl, .str "")] (fun _ => "") [] [("host", "flag.com:4000")]
        ⟨true, ["host"]⟩ =
      .ok ([.str "localhost:8080"], ⟨true, ["host"]⟩) ∧
    GoValue.str "flag.com:4000" ≠ GoValue.str "localhost:8080" := by
  decide

/-- C9 (amended): a second resolution pass in the same process yields the
values of the first pass provided the first pass parsed flags (nonempty
argument list) and no supplied flag changed any registered pointer (no flag
supplied, or each supplied value parses back to the registered default); a
supplied flag override, by contrast, is dropped by the second pass (the
counterexample), and with an empty argument list a second pass panics on
duplicate flag registration. -/
theorem claim9_theorem
    (fields : List (FieldDecl × GoValue)) (osEnv : OsEnv)
    (envFile args : List (String × String)) (d : List String)
    (vals : List GoValue) (fs1 : FlagSys)
    (hargs : args ≠ [])
    (hneutral : ∀ p ∈ fields, ∀ c : AnyContainer,
      mkContainer p.1 envFile = .ok c →
      parseFlagInto args (registerDefault c) = .ok (registerDefault c))
    (hrun1 : Behold fields osEnv envFile args ⟨false, d⟩ = .ok (vals, fs1)) :
    Behold fields osEnv envFile args fs1 = .ok (vals, fs1) := by
  unfold Behold at hrun1 ⊢
  cases hc : constructContainers envFile fields ⟨false, d⟩ with
  | error gp => rw [hc] at hrun1; simp [Bind.bind, Except.bind] at hrun1
  | ok pr =>
    obtain ⟨entries, fsc⟩ := pr
    rw [hc] at hrun1
    simp only [Bind.bind, Except.bind] at hrun1
    obtain ⟨hent, hpar⟩ :=
      constructContainers_fresh envFile fields ⟨false, d⟩ entries fsc rfl hc
    have hif : args ≠ [] ∧ ¬fsc.parsed = true := ⟨hargs, by simp [hpar]⟩
    rw [if_pos hif] at hrun1
    have hnoop : parsePhase args entries = .ok entries := by
      rw [hent]; exact parsePhase_fresh_noop envFile args fields hneutral
    rw [hnoop] at hrun1
    simp only [Except.ok.injEq, Prod.mk.injEq] at hrun1
    obtain ⟨hvals, hfs⟩ := hrun1
    have hfs1parsed : fs1.parsed = true := by rw [← hfs]
    rw [constructContainers_parsed_true envFile fields fs1 hfs1parsed]
    simp only [Bind.bind, Except.bind]
    have hif2 : ¬(args ≠ [] ∧ ¬fs1.parsed = true) := by simp [hfs1parsed]
    rw [if_neg hif2]
    simp only [Bind.bind, Except.bind]
    have hres : resolvePhase osEnv (fields.map (unregEntry envFile)) = vals := by
      rw [← hvals, hent, resolvePhase_fresh_eq_unreg]
    rw [hres]

/-- C9 amended witness: supplying `-host=localhost:8080`, equal to the
default, leaves the registered pointer unchanged, and the second pass indeed
reproduces the first pass's values. -/
theorem claim9_witness :
    Behold [(c9HostDecl, .str "")] (fun _ => "") [] [("host", "localhost:8080")]
        ⟨true, ["host"]⟩ =
      .ok ([.str "localhost:8080"], ⟨true, ["host"]⟩) :=
  claim9_theorem [(c9HostDecl, .str "")] (fun _ => "") []
    [("host", "localhost:8080")] [] [.str "localhost:8080"] ⟨true, ["host"]⟩
    (by decide)
    (by
      intro p hp c hm
      simp only [List.mem_singleton] at hp
      subst hp
      rw [show mkContainer c9HostDecl [] =
          Except.ok (AnyContainer.str
            ⟨⟨"localhost:8080", "", [], "HOST", "Host", "host"⟩, none⟩) from by decide] at hm
      injection hm with h
      subst h
      decide)
    (by decide)

end Configinator
